import Mathlib

/-!
Verification development for the `cwd_v2` lecture-generation pipeline
(`server_Project/cwd_v2/agents.py`, `utils.py`).

The Python code is embedded shallowly:

* JSON payload values become `Option`-valued structure fields; Python's
  `x or default` coercion on falsy values is modelled by explicit accessor
  functions.
* Python `float` values only ever flow through comparisons against the
  constant `0.25`, so they are modelled as rationals (`ℚ`).
* Python string lowering / stripping / comparison are modelled on the
  code-point list `String.data`, matching Python's code-point semantics
  (the embedded inputs are ASCII / Hangul text, where `Char.toLower`
  agrees with `str.lower`).
* Calls to the remote Gemini model are abstracted as oracle functions
  passed in as parameters; a call that raises is an `Except.error`.
* The thread-pool fan-out of `parallel_map` is modelled by quantifying
  over an arbitrary completion order (a permutation of the task list).
-/

/-- One entry of a verification verdict's `targets` list: either a JSON
object (with optional `key` / `section` / `name` / `notes` string fields,
as read by `Delegator.revise_selected_parts`) or a bare string. -/
inductive TargetEntry where
  | dict (key : Option String) (sect : Option String) (name : Option String)
      (notes : Option String)
  | str (s : String)
deriving DecidableEq

/-- Parsed JSON payload of the fact-checker model's reply, as consumed by
`FeedbackFactCheckerAgent._decide` and `verify`. A missing field is `none`.
The `overlap` field models the payload's overlap fraction entry and
`hallucinationCount` its hallucination-count entry; `reasons` is either a
single string or a list of strings. -/
structure Payload where
  decision : Option String
  overlap : Option ℚ
  hallucinationCount : Option Int
  reasons : Option (Sum String (List String))
  targets : Option (List TargetEntry)

/-- Code-point lowering, modelling Python `str.lower` on the embedded
(ASCII) alphabet. -/
def pyLower (s : String) : String := ⟨s.data.map Char.toLower⟩

/-- Whitespace characters removed by Python `str.strip`. -/
def wsChars : List Char := [' ', '\t', '\n', '\r', '\x0b', '\x0c']

/-- Whitespace test used by `pyStrip`. -/
def pyIsWS (c : Char) : Bool := wsChars.contains c

/-- Python `str.strip`: drop leading and trailing whitespace. -/
def pyStrip (s : String) : String :=
  ⟨((s.data.dropWhile pyIsWS).reverse.dropWhile pyIsWS).reverse⟩

/-- Python `a or b` on optional strings: `None` and the empty string are
falsy, anything else is truthy. -/
def pyOr (a b : Option String) : Option String :=
  match a with
  | some s => if s = "" then b else some s
  | none => b

/-- Model of `float(payload.get("overlap_ratio", 0.0) or 0.0)`: a missing
value yields `0`; on numbers the falsy-coercion (`0.0 or 0.0 = 0.0`) is the
identity. -/
def payloadOverlap (p : Payload) : ℚ := p.overlap.getD 0

/-- Model of `int(payload.get("hallucination_count", 0) or 0)`. -/
def payloadHcount (p : Payload) : Int := p.hallucinationCount.getD 0

/-- Model of `str(payload.get("decision", "")).lower()`. -/
def payloadDecision (p : Payload) : String := pyLower (p.decision.getD "")

/-- Result dictionary of `FeedbackFactCheckerAgent._decide`: a status
string plus the echoed metrics. -/
structure DecideResult where
  status : String
  overlap : ℚ
  hcount : Int

/-- Decision policy `FeedbackFactCheckerAgent._decide` (agents.py 144-156):
`pass`/`ok` first, then the abort test (`decision == "abort"` or at least 3
hallucinations), then the lenient band (overlap at least `0.25` and at most
1 hallucination), otherwise `needs_revision`. -/
def _decide (p : Payload) : DecideResult :=
  if payloadDecision p = "pass" ∨ payloadDecision p = "ok" then
    ⟨"ok", payloadOverlap p, payloadHcount p⟩
  else if payloadDecision p = "abort" ∨ 3 ≤ payloadHcount p then
    ⟨"abort", payloadOverlap p, payloadHcount p⟩
  else if 0.25 ≤ payloadOverlap p ∧ payloadHcount p ≤ 1 then
    ⟨"ok", payloadOverlap p, payloadHcount p⟩
  else
    ⟨"needs_revision", payloadOverlap p, payloadHcount p⟩

/-- C1 counterexample: a payload whose decision field is `"pass"` with 5
hallucinations is approved by `_decide`, not aborted — the `pass`/`ok`
branch is tested before the hallucination ceiling, so the ceiling does not
hold regardless of the decision field. -/
theorem decide_ceiling_cex :
    3 ≤ payloadHcount ⟨some "pass", some 0, some 5, none, none⟩ ∧
    (_decide ⟨some "pass", some 0, some 5, none, none⟩).status = "ok" ∧
    (_decide ⟨some "pass", some 0, some 5, none, none⟩).status ≠ "abort" := by
  decide

/-- C1 (amended): for every parsed payload whose lowercased decision field
is neither `"pass"` nor `"ok"`, a hallucination count of at least 3 forces
the abort status, regardless of the overlap value. -/
theorem decide_abort_on_ceiling (p : Payload)
    (hpass : payloadDecision p ≠ "pass") (hok : payloadDecision p ≠ "ok")
    (hc : 3 ≤ payloadHcount p) : (_decide p).status = "abort" := by
  unfold _decide
  rw [if_neg (by simp [hpass, hok]), if_pos (Or.inr hc)]

/-- C1 witness: a `"revise"` decision with exactly 3 hallucinations aborts. -/
theorem decide_abort_on_ceiling_witness :
    (_decide ⟨some "revise", some 1, some 3, none, none⟩).status = "abort" :=
  decide_abort_on_ceiling _ (by decide) (by decide) (by decide)

/-- C2: for every parsed payload whose lowercased decision field is none of
`"pass"`, `"ok"`, `"abort"` (for example `"revise"`), an overlap of at
least `0.25` together with at most 1 hallucination yields the approved
(`"ok"`) status. -/
theorem decide_lenient_band_ok (p : Payload)
    (h1 : payloadDecision p ≠ "pass") (h2 : payloadDecision p ≠ "ok")
    (h3 : payloadDecision p ≠ "abort")
    (h4 : (0.25 : ℚ) ≤ payloadOverlap p) (h5 : payloadHcount p ≤ 1) :
    (_decide p).status = "ok" := by
  unfold _decide
  rw [if_neg (by simp [h1, h2]), if_neg (not_or.mpr ⟨h3, by omega⟩),
    if_pos ⟨h4, h5⟩]

/-- C2 witness: decision `"revise"`, overlap `0.25`, one hallucination is
approved. -/
theorem decide_lenient_band_ok_witness :
    (_decide ⟨some "revise", some 0.25, some 1, none, none⟩).status = "ok" :=
  decide_lenient_band_ok _ (by decide) (by decide) (by decide) (le_refl _)
    (by decide)

/-- Comparison key used by `md_join`: Python `sorted(parts, key=lambda x: x[0])`
compares section identities as strings, i.e. lexicographically on code
points. -/
def keyLE (a b : String × String) : Prop := a.1.data ≤ b.1.data

instance : DecidableRel keyLE :=
  fun a b => inferInstanceAs (Decidable (a.1.data ≤ b.1.data))

instance : IsTotal (String × String) keyLE := ⟨fun a b => le_total a.1.data b.1.data⟩

instance : IsTrans (String × String) keyLE := ⟨fun _ _ _ h1 h2 => le_trans h1 h2⟩

/-- Strict version of `keyLE`. -/
def keyLT (a b : String × String) : Prop := a.1.data < b.1.data

instance : IsAntisymm (String × String) keyLT :=
  ⟨fun _ _ h1 h2 => absurd (lt_trans h1 h2) (lt_irrefl _)⟩

/-- Stable sort of the section list by identity, modelling
`sorted(parts, key=lambda x: x[0])` in `md_join`. -/
def sortParts (parts : List (String × String)) : List (String × String) :=
  List.insertionSort keyLE parts

/-- Unpolished merge `md_join` (utils.py 80-83): sort sections by identity,
render each as a subheading block, and join under the title heading with
blank-line separators. -/
def md_join (title : String) (parts : List (String × String)) : String :=
  "# " ++ title ++ "\n\n" ++
    String.intercalate "\n\n"
      ((sortParts parts).map (fun kv => "## " ++ kv.1 ++ "\n\n" ++ kv.2))

/-- Helper: two pairwise facts combine into a pairwise conjunction. -/
theorem pairwise_conj {α : Type} {R S : α → α → Prop} :
    ∀ {l : List α}, l.Pairwise R → l.Pairwise S →
      l.Pairwise (fun a b => R a b ∧ S a b) :=
  fun hR hS => List.Pairwise.and hR hS

/-- Helper: with pairwise-distinct identities, `sortParts` is strictly
sorted by identity. -/
theorem sortParts_strict_sorted (ps : List (String × String))
    (hnd : ps.Pairwise (fun a b => a.1 ≠ b.1)) :
    (sortParts ps).Pairwise keyLT := by
  have hs : List.Sorted keyLE (sortParts ps) := List.sorted_insertionSort keyLE ps
  have hnd2 : (sortParts ps).Pairwise (fun a b => a.1 ≠ b.1) :=
    ((List.perm_insertionSort keyLE ps).pairwise_iff (fun h => h.symm)).mpr hnd
  refine (pairwise_conj hs hnd2).imp ?_
  rintro a b ⟨hle, hne⟩
  exact lt_of_le_of_ne hle (fun hd => hne (String.ext hd))

/-- Helper: on section lists with pairwise-distinct identities, `sortParts`
depends only on the underlying multiset. -/
theorem sortParts_perm_eq (ps ps' : List (String × String))
    (hnd : ps.Pairwise (fun a b => a.1 ≠ b.1)) (hp : ps.Perm ps') :
    sortParts ps = sortParts ps' := by
  have hnd' : ps'.Pairwise (fun a b => a.1 ≠ b.1) :=
    (hp.pairwise_iff (fun h => h.symm)).mp hnd
  have hpp : (sortParts ps).Perm (sortParts ps') :=
    ((List.perm_insertionSort keyLE ps).trans hp).trans
      (List.perm_insertionSort keyLE ps').symm
  exact List.eq_of_perm_of_sorted hpp
    (sortParts_strict_sorted ps hnd) (sortParts_strict_sorted ps' hnd')

/-- C3: on a section set with pairwise-distinct identities, `md_join` is a
deterministic pure function — identical on identical inputs, invariant
under reordering of the input list — and the emitted blocks follow the
strictly ascending code-point order of their identities. -/
theorem md_join_deterministic (title : String) (ps ps' : List (String × String))
    (hnd : ps.Pairwise (fun a b => a.1 ≠ b.1)) (hp : ps.Perm ps') :
    md_join title ps = md_join title ps ∧
    md_join title ps = md_join title ps' ∧
    (sortParts ps).Pairwise keyLT := by
  refine ⟨rfl, ?_, sortParts_strict_sorted ps hnd⟩
  unfold md_join
  rw [sortParts_perm_eq ps ps' hnd hp]

/-- C3 witness: a two-section set merged in either input order. -/
theorem md_join_deterministic_witness :
    md_join "T" [("b", "B"), ("a", "A")] = md_join "T" [("b", "B"), ("a", "A")] ∧
    md_join "T" [("b", "B"), ("a", "A")] = md_join "T" [("a", "A"), ("b", "B")] ∧
    (sortParts [("b", "B"), ("a", "A")]).Pairwise keyLT :=
  md_join_deterministic "T" _ _ (by decide) (by decide)

/-- Python substring containment `needle in hay`, on code points. -/
def strContains (hay needle : String) : Prop := needle.data <:+: hay.data

instance (hay needle : String) : Decidable (strContains hay needle) :=
  List.decidableInfix needle.data hay.data

/-- Feedback dictionary flowing through the coordinator loop: the verdict
status (absent on the forced-rewrite dictionary built in `run_build`), the
raw model text, and the target list. -/
structure Feedback where
  status : Option String
  raw : String
  targets : List TargetEntry
deriving DecidableEq

/-- Model of the reasons normalisation in `verify`:
`payload.get("reasons") or []`, wrapping a lone string into a list. -/
def pyReasons (p : Payload) : List String :=
  match p.reasons with
  | none => []
  | some (Sum.inl s) => if s = "" then [] else [s]
  | some (Sum.inr l) => l

/-- Verifier `FeedbackFactCheckerAgent.verify` after the model call
(agents.py 169-209), parameterised by the JSON-parse outcome of the reply
text: on parse failure, keyword fallback over the raw text with empty
targets; on success, the `_decide` policy plus target normalisation (when
the payload gives no targets, keys are matched as substrings of reason
strings). -/
def verify (parsed : Option Payload) (text : String)
    (section_keys : List String) : Feedback :=
  match parsed with
  | none =>
    if strContains (pyLower text) "abort" then ⟨some "abort", text, []⟩
    else if strContains (pyLower text) "pass" ∨ strContains text "승인" ∨
        strContains (pyLower text) "ok" then ⟨some "ok", text, []⟩
    else ⟨some "needs_revision", text, []⟩
  | some payload =>
    let targets0 := payload.targets.getD []
    let targets :=
      if targets0 = [] then
        section_keys.filterMap (fun sk =>
          ((pyReasons payload).find? (fun r => decide (strContains r sk))).map
            (fun r => TargetEntry.dict (some sk) none none (some r)))
      else targets0
    ⟨some ((_decide payload).status), text, targets⟩

/-- C9: on JSON-parse failure the verdict is computed by keyword scanning —
`"abort"` in the lowered text gives abort; otherwise `"pass"`, the approval
token `"승인"`, or `"ok"` gives the approved status; otherwise
needs_revision — and the fallback targets are always empty. -/
theorem verify_fallback_keywords (text : String) (keys : List String) :
    (verify none text keys).targets = [] ∧
    (strContains (pyLower text) "abort" →
      (verify none text keys).status = some "abort") ∧
    (¬ strContains (pyLower text) "abort" →
      (strContains (pyLower text) "pass" ∨ strContains text "승인" ∨
        strContains (pyLower text) "ok") →
      (verify none text keys).status = some "ok") ∧
    (¬ strContains (pyLower text) "abort" →
      ¬ (strContains (pyLower text) "pass" ∨ strContains text "승인" ∨
        strContains (pyLower text) "ok") →
      (verify none text keys).status = some "needs_revision") := by
  refine ⟨?_, ?_, ?_, ?_⟩
  · unfold verify; split_ifs <;> rfl
  · intro h; unfold verify; rw [if_pos h]
  · intro h1 h2; unfold verify; rw [if_neg h1, if_pos h2]
  · intro h1 h2; unfold verify; rw [if_neg h1, if_neg h2]

/-- C9 witness: a reply with none of the keywords classifies as
needs_revision with empty targets; one containing `"abort"` aborts. -/
theorem verify_fallback_keywords_witness :
    (verify none "garbled reply" ["k"]).targets = [] ∧
    (verify none "garbled reply" ["k"]).status = some "needs_revision" ∧
    (verify none "now abort this" []).status = some "abort" :=
  ⟨(verify_fallback_keywords "garbled reply" ["k"]).1,
   (verify_fallback_keywords "garbled reply" ["k"]).2.2.2 (by decide) (by decide),
   (verify_fallback_keywords "now abort this" []).2.1 (by decide)⟩

/-- Work unit produced by the structure planner: a section identity plus
its generation instruction. -/
structure SectionPlan where
  key : String
  prompt : String
deriving DecidableEq

deriving instance DecidableEq for Except

/-- Task triple built in `Delegator.run_parallel_generation`:
`(str(i + 1), plan.prompt, plan.key)`. -/
def mkTasks (plans : List SectionPlan) : List (String × String × String) :=
  plans.enum.map (fun ip => (toString (ip.1 + 1), ip.2.prompt, ip.2.key))

/-- Section identity of a task triple (`t[2]`, the key `parallel_map`
associates with each future). -/
def taskKey (t : String × String × String) : String := t.2.2

/-- The `do_one` closure of `Delegator.run_parallel_generation`: one
generation attempt, and on an exception a single synchronous retry whose
own failure propagates. The oracle `gen n t` is the outcome of the
`n`-th `worker.generate()` call for task `t`. -/
def do_one (gen : Nat → String × String × String → Except String String)
    (task : String × String × String) : Except String String :=
  match gen 0 task with
  | Except.ok s => Except.ok s
  | Except.error _ => gen 1 task

/-- Thread-pool fan-out `parallel_map` (utils.py 65-77), applied to the
tasks in their completion order: a failed future contributes the error
marker `"__ERROR__: " ++ message` as that task's content. -/
def parallel_map (tasks : List (String × String × String))
    (worker_fn : String × String × String → Except String String) :
    List (String × String) :=
  tasks.map (fun t => match worker_fn t with
    | Except.ok text => (taskKey t, text)
    | Except.error e => (taskKey t, "__ERROR__: " ++ e))

/-- Dispatch of `Delegator.run_parallel_generation` (agents.py 228-242),
with `completed` the order in which the futures complete. -/
def run_parallel_generation
    (gen : Nat → String × String × String → Except String String)
    (plans : List SectionPlan) (completed : List (String × String × String)) :
    List (String × String) :=
  parallel_map completed (do_one gen)

/-- C4: when exactly one task fails on both generation attempts and every
other task succeeds, the batch result — in any completion order — carries
one entry per input task (its keys are a permutation of the task keys),
the failing task's content is the error marker over the retry's message,
and every other task's entry is its successful output. -/
theorem dispatcher_single_failure
    (gen : Nat → String × String × String → Except String String)
    (plans : List SectionPlan) (completed : List (String × String × String))
    (f : String × String × String) (e0 msg : String)
    (out : String × String × String → String)
    (hperm : completed.Perm (mkTasks plans)) (hf : f ∈ mkTasks plans)
    (h0 : gen 0 f = Except.error e0) (h1 : gen 1 f = Except.error msg)
    (hok : ∀ t ∈ mkTasks plans, t ≠ f → do_one gen t = Except.ok (out t)) :
    run_parallel_generation gen plans completed =
      completed.map (fun t => if t = f then (taskKey f, "__ERROR__: " ++ msg)
        else (taskKey t, out t)) ∧
    ((run_parallel_generation gen plans completed).map Prod.fst).Perm
      ((mkTasks plans).map taskKey) ∧
    (taskKey f, "__ERROR__: " ++ msg) ∈
      run_parallel_generation gen plans completed := by
  have hmain : run_parallel_generation gen plans completed =
      completed.map (fun t => if t = f then (taskKey f, "__ERROR__: " ++ msg)
        else (taskKey t, out t)) := by
    unfold run_parallel_generation parallel_map
    refine List.map_congr_left ?_
    intro t ht
    by_cases hte : t = f
    · subst hte
      rw [if_pos rfl]
      simp [do_one, h0, h1]
    · rw [if_neg hte, hok t (hperm.mem_iff.mp ht) hte]
  refine ⟨hmain, ?_, ?_⟩
  · rw [hmain, List.map_map]
    have : completed.map
        (Prod.fst ∘ fun t => if t = f then (taskKey f, "__ERROR__: " ++ msg)
          else (taskKey t, out t)) = completed.map taskKey := by
      refine List.map_congr_left ?_
      intro t _
      by_cases hte : t = f
      · subst hte; simp
      · simp [hte]
    rw [this]
    exact hperm.map taskKey
  · rw [hmain]
    exact List.mem_map.mpr ⟨f, hperm.mem_iff.mpr hf, by rw [if_pos rfl]⟩

/-- C4 witness: two tasks, the second always failing, dispatched in
reversed completion order. -/
theorem dispatcher_single_failure_witness :
    run_parallel_generation
        (fun _ t => if taskKey t = "k2" then Except.error "boom"
          else Except.ok "good")
        [⟨"k1", "p1"⟩, ⟨"k2", "p2"⟩]
        [("2", "p2", "k2"), ("1", "p1", "k1")] =
      [("2", "p2", "k2"), ("1", "p1", "k1")].map
        (fun t => if t = ("2", "p2", "k2") then ("k2", "__ERROR__: " ++ "boom")
          else (taskKey t, "good")) ∧
    ((run_parallel_generation
        (fun _ t => if taskKey t = "k2" then Except.error "boom"
          else Except.ok "good")
        [⟨"k1", "p1"⟩, ⟨"k2", "p2"⟩]
        [("2", "p2", "k2"), ("1", "p1", "k1")]).map Prod.fst).Perm
      ((mkTasks [⟨"k1", "p1"⟩, ⟨"k2", "p2"⟩]).map taskKey) ∧
    ("k2", "__ERROR__: " ++ "boom") ∈
      run_parallel_generation
        (fun _ t => if taskKey t = "k2" then Except.error "boom"
          else Except.ok "good")
        [⟨"k1", "p1"⟩, ⟨"k2", "p2"⟩]
        [("2", "p2", "k2"), ("1", "p1", "k1")] :=
  dispatcher_single_failure _ _ _ ("2", "p2", "k2") "boom" "boom" (fun _ => "good")
    (by decide) (by decide) (by decide) (by decide) (by decide)

/-- Target identity extracted from one entry of a verdict's `targets` list
(agents.py 271-281): for a JSON object, the first truthy of
`key`/`section`/`name`, stripped, skipped when empty; a bare string is
appended as is. -/
def extractedKey (t : TargetEntry) : Option String :=
  match t with
  | TargetEntry.dict key sect name _ =>
    let k := pyStrip ((pyOr (pyOr key sect) name).getD "")
    if k = "" then none else some k
  | TargetEntry.str s => some s

/-- The `target_keys` list built by `Delegator.revise_selected_parts`. -/
def extractTargetKeys (ts : List TargetEntry) : List String :=
  ts.filterMap extractedKey

/-- The `notes_map` assignments of `Delegator.revise_selected_parts`, in
iteration order: a JSON object whose extracted key and stripped notes are
both non-empty assigns `notes_map[key] = notes`. -/
def noteAssignments : List TargetEntry → List (String × String)
  | [] => []
  | TargetEntry.dict key sect name notes :: ts =>
    let k := pyStrip ((pyOr (pyOr key sect) name).getD "")
    let ns := pyStrip (notes.getD "")
    (if k = "" ∨ ns = "" then [] else [(k, ns)]) ++ noteAssignments ts
  | TargetEntry.str _ :: ts => noteAssignments ts

/-- Dictionary read `notes_map.get(key, "")`: the last assignment wins. -/
def notesGet (ts : List TargetEntry) (k : String) : String :=
  (((noteAssignments ts).reverse).lookup k).getD ""

/-- Regeneration request built in `Delegator.revise_parts`. -/
def reviseUser (key fbRaw text : String) : String :=
  "섹션 \x27" ++ key ++ "\x27 내용을 다음 피드백을 반영해 수정하라.\n피드백:\n" ++
    fbRaw ++ "\n\n현재 섹션 텍스트:\n" ++ text

/-- Regeneration request built in `Delegator.revise_selected_parts`. -/
def selUser (key notes text raw : String) : String :=
  "섹션 \x27" ++ key ++ "\x27 내용을 다음 피드백을 반영해 수정하라.\n피드백 원본:\n" ++
    raw ++ "\n해당 섹션 메모: " ++ notes ++ "\n\n현재 섹션 텍스트:\n" ++ text

/-- Full revision `Delegator.revise_parts` (agents.py 247-264): every
section is regenerated; a raised regeneration keeps the prior content. The
oracle `gen key prompt` is the outcome of `worker.generate()` for the
section plan built from `key` and `prompt`. -/
def revise_parts (gen : String → String → Except String String)
    (parts : List (String × String)) (feedback_raw : String) :
    List (String × String) :=
  parts.map (fun kv => match gen kv.1 (reviseUser kv.1 feedback_raw kv.2) with
    | Except.ok s => (kv.1, s)
    | Except.error _ => kv)

/-- Targeted revision `Delegator.revise_selected_parts` (agents.py
266-308): with no extracted target key, fall back to full revision over
the raw feedback; otherwise regenerate exactly the sections whose identity
is in the target list, keeping prior content on a raised regeneration, and
pass every other section through unchanged. -/
def revise_selected_parts (gen : String → String → Except String String)
    (parts : List (String × String)) (fb : Feedback) :
    List (String × String) :=
  let target_keys := extractTargetKeys fb.targets
  if target_keys = [] then revise_parts gen parts fb.raw
  else
    parts.map (fun kv =>
      if kv.1 ∈ target_keys then
        match gen kv.1 (selUser kv.1 (notesGet fb.targets kv.1) kv.2 fb.raw) with
        | Except.ok s => (kv.1, s)
        | Except.error _ => kv
      else kv)

/-- C5: over three sections with distinct identities, a verdict whose
extracted target set is exactly the first identity leaves the other two
sections byte-identical and in their positions; only the first section's
content may change. -/
theorem targeted_revision_frame (gen : String → String → Except String String)
    (ka kb kc a b c : String) (fb : Feedback)
    (hne : extractTargetKeys fb.targets ≠ [])
    (hall : ∀ k ∈ extractTargetKeys fb.targets, k = ka)
    (hb : kb ≠ ka) (hc : kc ≠ ka) :
    ∃ x, revise_selected_parts gen [(ka, a), (kb, b), (kc, c)] fb =
      [(ka, x), (kb, b), (kc, c)] := by
  obtain ⟨y, hy⟩ := List.exists_mem_of_ne_nil _ hne
  have hka : ka ∈ extractTargetKeys fb.targets := (hall y hy) ▸ hy
  have hkb : kb ∉ extractTargetKeys fb.targets := fun hm => hb (hall kb hm)
  have hkc : kc ∉ extractTargetKeys fb.targets := fun hm => hc (hall kc hm)
  unfold revise_selected_parts
  rw [if_neg hne]
  simp only [List.map_cons, List.map_nil, if_pos hka, if_neg hkb, if_neg hkc]
  cases hgen : gen ka (selUser ka (notesGet fb.targets ka) a fb.raw) with
  | ok s => exact ⟨s, rfl⟩
  | error e => exact ⟨a, rfl⟩

/-- C5 witness: target set exactly `"A"` over sections `A`, `B`, `C`. -/
theorem targeted_revision_frame_witness :
    ∃ x, revise_selected_parts (fun _ _ => Except.ok "new")
        [("A", "a"), ("B", "b"), ("C", "c")] ⟨none, "", [TargetEntry.str "A"]⟩ =
      [("A", x), ("B", "b"), ("C", "c")] :=
  targeted_revision_frame _ "A" "B" "C" "a" "b" "c"
    ⟨none, "", [TargetEntry.str "A"]⟩
    (by decide) (by decide) (by decide) (by decide)

/-- C6: in both full and targeted revision, when the regeneration call for
the section at position `i` raises, that position of the result still
holds the section's prior identity and content — a failure never removes
or empties a section. -/
theorem revision_failure_keeps_content
    (gen : String → String → Except String String)
    (parts : List (String × String)) (fbRaw : String) (fb : Feedback)
    (i : Nat) (k t : String) (hi : parts[i]? = some (k, t)) :
    (∀ e, gen k (reviseUser k fbRaw t) = Except.error e →
      (revise_parts gen parts fbRaw)[i]? = some (k, t)) ∧
    (extractTargetKeys fb.targets ≠ [] →
      ∀ e, gen k (selUser k (notesGet fb.targets k) t fb.raw) = Except.error e →
      (revise_selected_parts gen parts fb)[i]? = some (k, t)) := by
  constructor
  · intro e hg
    unfold revise_parts
    rw [List.getElem?_map, hi]
    simp [hg]
  · intro hne e hg
    unfold revise_selected_parts
    rw [if_neg hne, List.getElem?_map, hi]
    by_cases hm : k ∈ extractTargetKeys fb.targets
    · simp [hm, hg]
    · simp [hm]

/-- C6 witness: an always-raising regeneration leaves the single section
untouched in both revision modes. -/
theorem revision_failure_keeps_content_witness :
    (revise_parts (fun _ _ => Except.error "down") [("A", "a")] "fb")[0]? =
      some ("A", "a") ∧
    (revise_selected_parts (fun _ _ => Except.error "down") [("A", "a")]
      ⟨none, "", [TargetEntry.str "A"]⟩)[0]? = some ("A", "a") :=
  ⟨(revision_failure_keeps_content (fun _ _ => Except.error "down") [("A", "a")]
      "fb" ⟨none, "", [TargetEntry.str "A"]⟩ 0 "A" "a" rfl).1 "down" rfl,
   (revision_failure_keeps_content (fun _ _ => Except.error "down") [("A", "a")]
      "fb" ⟨none, "", [TargetEntry.str "A"]⟩ 0 "A" "a" rfl).2 (by decide)
      "down" rfl⟩

/-- C10 counterexample: a non-empty targets list made of one JSON object
with no usable identity extracts no target key, so (vacuously) no
extracted key matches any section — yet `revise_selected_parts` falls back
to full revision and rewrites the section instead of passing it through. -/
theorem untargeted_passthrough_cex :
    [TargetEntry.dict none none none none] ≠ ([] : List TargetEntry) ∧
    extractTargetKeys [TargetEntry.dict none none none none] = [] ∧
    revise_selected_parts (fun _ _ => Except.ok "CHANGED") [("A", "a")]
        ⟨none, "", [TargetEntry.dict none none none none]⟩ ≠ [("A", "a")] := by
  decide

/-- C10 (amended): when the extracted target-key list is non-empty and
none of its keys equals any current section's identity, every section
passes through byte-identical and no fallback to full revision occurs. -/
theorem untargeted_passthrough (gen : String → String → Except String String)
    (parts : List (String × String)) (fb : Feedback)
    (hne : extractTargetKeys fb.targets ≠ [])
    (hnomatch : ∀ k ∈ extractTargetKeys fb.targets, ∀ kv ∈ parts, k ≠ kv.1) :
    revise_selected_parts gen parts fb = parts := by
  unfold revise_selected_parts
  rw [if_neg hne]
  have h : ∀ kv ∈ parts,
      (if kv.1 ∈ extractTargetKeys fb.targets then
        match gen kv.1 (selUser kv.1 (notesGet fb.targets kv.1) kv.2 fb.raw) with
        | Except.ok s => (kv.1, s)
        | Except.error _ => kv
      else kv) = kv := by
    intro kv hkv
    exact if_neg (fun hm => hnomatch kv.1 hm kv hkv rfl)
  exact (List.map_congr_left h).trans (by simp)

/-- C10 witness: a target key matching no section leaves the section list
unchanged. -/
theorem untargeted_passthrough_witness :
    revise_selected_parts (fun _ _ => Except.ok "CHANGED") [("A", "a")]
      ⟨none, "", [TargetEntry.str "B"]⟩ = [("A", "a")] :=
  untargeted_passthrough _ _ ⟨none, "", [TargetEntry.str "B"]⟩
    (by decide) (by decide)

/-- Strict-rewrite directive appended to the raw feedback when the verdict
is abort (agents.py 350-353). -/
def strict_msg : String :=
  "STRICT_REWRITE: 원문 직접 근거(페이지/직접 인용) 없는 내용은 모두 제거/비워둘 것. " ++
    "추론/외삽 금지. 불확실 부분은 \x27확인 필요\x27로 표시하고 질문 제시."

/-- Note attached to every forced target on an abort verdict (agents.py 354). -/
def forced_note : String := "치명적 환각: 근거 있는 내용만 유지/복원"

/-- Forced feedback dictionary built by `Coordinator.run_build` on an abort
verdict: no status key, the raw feedback with the strict directive
appended, and every current section as a target. -/
def forcedFeedback (raw0 : String) (parts : List (String × String)) : Feedback :=
  ⟨none, raw0 ++ "\n" ++ strict_msg,
    parts.map (fun kv => TargetEntry.dict (some kv.1) none none (some forced_note))⟩

/-- External collaborators of the coordinator loop: the fact-checking
verdict for a draft (`feedback_agent.verify`), the section regeneration
oracle, and the draft merge (`md_join` or the polishing formatter,
depending on the formatting mode). -/
structure LoopEnv where
  verifyF : String → List String → Feedback
  gen : String → String → Except String String
  mdOf : List (String × String) → String

/-- Outcome of the coordinator's feedback loop: the final section set and
draft, plus the number of revision passes actually executed (a ghost
observation; the Python loop only logs its counter). -/
structure LoopResult where
  parts : List (String × String)
  md : String
  revisions : Nat
deriving DecidableEq

/-- The `while True` feedback loop of `Coordinator.run_build` (agents.py
344-371). The Python loop increments `loops` each non-approved pass and
breaks once `loops > max_feedback_loops`; `rem` is the remaining budget
`max_feedback_loops - loops`, which reaches `0` exactly when the next
increment would exceed the bound, so the recursion is structural. -/
def run_loop_aux (E : LoopEnv) (rem : Nat) (parts : List (String × String))
    (md : String) : LoopResult :=
  let fb0 := E.verifyF md (parts.map Prod.fst)
  let fb := if fb0.status = some "abort" then forcedFeedback fb0.raw parts else fb0
  if fb.status = some "ok" then ⟨parts, md, 0⟩
  else
    match rem with
    | 0 => ⟨parts, md, 0⟩
    | rem' + 1 =>
      let parts' := if fb.targets = [] then revise_parts E.gen parts fb.raw
        else revise_selected_parts E.gen parts fb
      let md' := E.mdOf parts'
      let r := run_loop_aux E rem' parts' md'
      ⟨r.parts, r.md, r.revisions + 1⟩

/-- Feedback loop entered with `loops = 0`: the full budget
`max_feedback_loops` (already coerced to a natural number, modelling
`max(0, int(max_feedback_loops))`) is available. -/
def run_loop (E : LoopEnv) (max_feedback_loops : Nat)
    (parts : List (String × String)) (md : String) : LoopResult :=
  run_loop_aux E max_feedback_loops parts md

/-- Helper: the loop never executes more revision passes than its
remaining budget. -/
theorem run_loop_aux_revisions_le (E : LoopEnv) :
    ∀ (rem : Nat) (parts : List (String × String)) (md : String),
      (run_loop_aux E rem parts md).revisions ≤ rem := by
  intro rem
  induction rem with
  | zero =>
    intro parts md
    unfold run_loop_aux
    dsimp only
    split <;> split <;> exact Nat.le_refl 0
  | succ n ih =>
    intro parts md
    unfold run_loop_aux
    dsimp only
    split <;> split <;>
      first
        | exact Nat.zero_le _
        | exact Nat.succ_le_succ (ih _ _)

/-- C7: the feedback loop always terminates having executed at most
`max_feedback_loops` revision passes (the first verification costs no
budget), and with a budget of 0 a needs_revision verdict on the first
check ends the build at once with the unrevised sections and draft and
zero revision passes. -/
theorem coordinator_loop_bounded (E : LoopEnv) (m : Nat)
    (parts : List (String × String)) (md : String) :
    (run_loop E m parts md).revisions ≤ m ∧
    ((E.verifyF md (parts.map Prod.fst)).status = some "needs_revision" →
      run_loop E 0 parts md = ⟨parts, md, 0⟩) := by
  refine ⟨run_loop_aux_revisions_le E m parts md, ?_⟩
  intro h
  unfold run_loop run_loop_aux
  dsimp only
  rw [h]
  simp

/-- C7 witness: zero budget and a needs_revision first verdict. -/
theorem coordinator_loop_bounded_witness :
    (run_loop ⟨fun _ _ => ⟨some "needs_revision", "r", []⟩,
        fun _ _ => Except.ok "x", fun _ => "m"⟩ 0 [("A", "a")] "d").revisions ≤ 0 ∧
    run_loop ⟨fun _ _ => ⟨some "needs_revision", "r", []⟩,
        fun _ _ => Except.ok "x", fun _ => "m"⟩ 0 [("A", "a")] "d" =
      ⟨[("A", "a")], "d", 0⟩ :=
  ⟨(coordinator_loop_bounded ⟨fun _ _ => ⟨some "needs_revision", "r", []⟩,
      fun _ _ => Except.ok "x", fun _ => "m"⟩ 0 [("A", "a")] "d").1,
   (coordinator_loop_bounded ⟨fun _ _ => ⟨some "needs_revision", "r", []⟩,
      fun _ _ => Except.ok "x", fun _ => "m"⟩ 0 [("A", "a")] "d").2 rfl⟩

/-- Helper: extraction recovers exactly the section identities from the
forced target list, for identities that are non-empty and strip-fixed (as
planner-produced keys are). -/
theorem forced_keys (parts : List (String × String))
    (hkeys : ∀ kv ∈ parts, pyStrip kv.1 = kv.1 ∧ kv.1 ≠ "") :
    extractTargetKeys
        (parts.map (fun kv => TargetEntry.dict (some kv.1) none none (some forced_note))) =
      parts.map Prod.fst := by
  induction parts with
  | nil => rfl
  | cons kv rest ih =>
    obtain ⟨hs, hne⟩ := hkeys kv (List.mem_cons_self kv rest)
    have ih' := ih (fun x hx => hkeys x (List.mem_cons_of_mem kv hx))
    simp only [List.map_cons, extractTargetKeys, List.filterMap_cons] at ih' ⊢
    rw [show extractedKey (TargetEntry.dict (some kv.1) none none (some forced_note)) =
        some kv.1 by simp [extractedKey, pyOr, hne, hs]]
    rw [ih']

/-- Helper: the notes map built from the forced target list assigns the
fixed forced note to every pair. -/
theorem forced_note_assignments (parts : List (String × String))
    (hkeys : ∀ kv ∈ parts, pyStrip kv.1 = kv.1 ∧ kv.1 ≠ "") :
    noteAssignments
        (parts.map (fun kv => TargetEntry.dict (some kv.1) none none (some forced_note))) =
      parts.map (fun kv => (kv.1, forced_note)) := by
  induction parts with
  | nil => rfl
  | cons kv rest ih =>
    obtain ⟨hs, hne⟩ := hkeys kv (List.mem_cons_self kv rest)
    have ih' := ih (fun x hx => hkeys x (List.mem_cons_of_mem kv hx))
    have hnote : pyStrip forced_note = forced_note := by decide
    have hnotene : forced_note ≠ "" := by decide
    simp only [List.map_cons, noteAssignments]
    rw [ih']
    simp [pyOr, hne, hs, hnote, hnotene]

/-- Helper: a dictionary whose assignments all carry the same value
returns that value on any assigned key. -/
theorem lookup_const_value (v d : String) :
    ∀ (m : List (String × String)) (k : String), (∀ p ∈ m, p.2 = v) →
      k ∈ m.map Prod.fst → ((m.lookup k).getD d) = v := by
  intro m
  induction m with
  | nil => intro k _ hk; simp at hk
  | cons p rest ih =>
    intro k hall hk
    by_cases hke : k == p.1
    · rw [List.lookup, hke]
      exact hall p (List.mem_cons_self p rest)
    · rw [List.lookup, Bool.of_not_eq_true hke]
      refine ih k (fun q hq => hall q (List.mem_cons_of_mem p hq)) ?_
      rcases List.mem_map.mp hk with ⟨q, hq, hqk⟩
      rcases List.mem_cons.mp hq with hq1 | hq2
      · exact absurd (beq_iff_eq.mpr (hqk ▸ hq1 ▸ rfl)) (fun hb => hke hb)
      · exact List.mem_map.mpr ⟨q, hq2, hqk⟩

/-- Helper: on the forced target list, `notesGet` yields the forced note
for every section identity. -/
theorem forced_notes_get (parts : List (String × String))
    (hkeys : ∀ kv ∈ parts, pyStrip kv.1 = kv.1 ∧ kv.1 ≠ "")
    (k : String) (hk : k ∈ parts.map Prod.fst) :
    notesGet
        (parts.map (fun kv => TargetEntry.dict (some kv.1) none none (some forced_note)))
        k = forced_note := by
  unfold notesGet
  rw [forced_note_assignments parts hkeys]
  refine lookup_const_value forced_note "" _ k ?_ ?_
  · intro p hp
    rcases List.mem_reverse.mp hp with hp'
    rcases List.mem_map.mp hp' with ⟨kv, _, hkv⟩
    exact hkv ▸ rfl
  · rw [List.map_reverse, List.mem_reverse, List.map_map]
    exact hk

/-- Helper: with the forced feedback every section is targeted, so the
targeted revision regenerates each section with the strict prompt. -/
theorem forced_full_regeneration (gen : String → String → Except String String)
    (raw0 : String) (parts : List (String × String))
    (hkeys : ∀ kv ∈ parts, pyStrip kv.1 = kv.1 ∧ kv.1 ≠ "")
    (hne : parts ≠ []) :
    revise_selected_parts gen parts (forcedFeedback raw0 parts) =
      parts.map (fun kv =>
        match gen kv.1 (selUser kv.1 forced_note kv.2 (raw0 ++ "\n" ++ strict_msg)) with
        | Except.ok s => (kv.1, s)
        | Except.error _ => kv) := by
  unfold revise_selected_parts
  have htk : extractTargetKeys (forcedFeedback raw0 parts).targets =
      parts.map Prod.fst := forced_keys parts hkeys
  rw [if_neg (by rw [htk]; simpa using hne)]
  refine List.map_congr_left ?_
  intro kv hkv
  rw [if_pos (htk ▸ List.mem_map_of_mem Prod.fst hkv)]
  rw [show notesGet (forcedFeedback raw0 parts).targets kv.1 = forced_note from
    forced_notes_get parts hkeys kv.1 (List.mem_map_of_mem Prod.fst hkv)]
  rfl

/-- C8: on an abort verdict the loop does not terminate — every current
section is forced into the target set, and (with budget remaining) the
next state is one full strict regeneration pass over all sections, merged
and re-verified, with exactly one extra revision pass counted. Section
identities are assumed non-empty and strip-fixed, as the planner produces
them. -/
theorem abort_forces_full_rewrite (E : LoopEnv) (m : Nat)
    (parts : List (String × String)) (md : String)
    (habort : (E.verifyF md (parts.map Prod.fst)).status = some "abort")
    (hkeys : ∀ kv ∈ parts, pyStrip kv.1 = kv.1 ∧ kv.1 ≠ "")
    (hne : parts ≠ []) :
    (∀ kv ∈ parts, kv.1 ∈ extractTargetKeys
      ((forcedFeedback (E.verifyF md (parts.map Prod.fst)).raw parts).targets)) ∧
    run_loop E (m + 1) parts md =
      ⟨(run_loop_aux E m
          (parts.map (fun kv =>
            match E.gen kv.1 (selUser kv.1 forced_note kv.2
              ((E.verifyF md (parts.map Prod.fst)).raw ++ "\n" ++ strict_msg)) with
            | Except.ok s => (kv.1, s)
            | Except.error _ => kv))
          (E.mdOf (parts.map (fun kv =>
            match E.gen kv.1 (selUser kv.1 forced_note kv.2
              ((E.verifyF md (parts.map Prod.fst)).raw ++ "\n" ++ strict_msg)) with
            | Except.ok s => (kv.1, s)
            | Except.error _ => kv)))).parts,
        (run_loop_aux E m
          (parts.map (fun kv =>
            match E.gen kv.1 (selUser kv.1 forced_note kv.2
              ((E.verifyF md (parts.map Prod.fst)).raw ++ "\n" ++ strict_msg)) with
            | Except.ok s => (kv.1, s)
            | Except.error _ => kv))
          (E.mdOf (parts.map (fun kv =>
            match E.gen kv.1 (selUser kv.1 forced_note kv.2
              ((E.verifyF md (parts.map Prod.fst)).raw ++ "\n" ++ strict_msg)) with
            | Except.ok s => (kv.1, s)
            | Except.error _ => kv)))).md,
        (run_loop_aux E m
          (parts.map (fun kv =>
            match E.gen kv.1 (selUser kv.1 forced_note kv.2
              ((E.verifyF md (parts.map Prod.fst)).raw ++ "\n" ++ strict_msg)) with
            | Except.ok s => (kv.1, s)
            | Except.error _ => kv))
          (E.mdOf (parts.map (fun kv =>
            match E.gen kv.1 (selUser kv.1 forced_note kv.2
              ((E.verifyF md (parts.map Prod.fst)).raw ++ "\n" ++ strict_msg)) with
            | Except.ok s => (kv.1, s)
            | Except.error _ => kv)))).revisions + 1⟩ := by
  have htk : extractTargetKeys
      ((forcedFeedback (E.verifyF md (parts.map Prod.fst)).raw parts).targets) =
      parts.map Prod.fst :=
    forced_keys parts hkeys
  constructor
  · intro kv hkv
    rw [htk]
    exact List.mem_map_of_mem Prod.fst hkv
  · unfold run_loop
    rw [run_loop_aux.eq_def]
    dsimp only
    rw [habort]
    rw [if_pos rfl]
    rw [if_neg (by simp [forcedFeedback])]
    rw [if_neg (by simp [forcedFeedback]; exact hne)]
    rw [forced_full_regeneration E.gen (E.verifyF md (parts.map Prod.fst)).raw
      parts hkeys hne]

/-- C8 witness: a single-section build whose first verdict is abort with
budget 1. -/
theorem abort_forces_full_rewrite_witness :
    (∀ kv ∈ [("A", "a")], kv.1 ∈ extractTargetKeys
      ((forcedFeedback ((⟨fun _ _ => ⟨some "abort", "R", []⟩,
        fun _ _ => Except.ok "new", fun _ => "MD"⟩ : LoopEnv).verifyF "d"
          ([("A", "a")].map Prod.fst)).raw [("A", "a")]).targets)) ∧
    run_loop ⟨fun _ _ => ⟨some "abort", "R", []⟩,
        fun _ _ => Except.ok "new", fun _ => "MD"⟩ 1 [("A", "a")] "d" =
      ⟨(run_loop_aux ⟨fun _ _ => ⟨some "abort", "R", []⟩,
          fun _ _ => Except.ok "new", fun _ => "MD"⟩ 0
          ([("A", "a")].map (fun kv =>
            match (Except.ok "new" : Except String String) with
            | Except.ok s => (kv.1, s)
            | Except.error _ => kv))
          "MD").parts,
        (run_loop_aux ⟨fun _ _ => ⟨some "abort", "R", []⟩,
          fun _ _ => Except.ok "new", fun _ => "MD"⟩ 0
          ([("A", "a")].map (fun kv =>
            match (Except.ok "new" : Except String String) with
            | Except.ok s => (kv.1, s)
            | Except.error _ => kv))
          "MD").md,
        (run_loop_aux ⟨fun _ _ => ⟨some "abort", "R", []⟩,
          fun _ _ => Except.ok "new", fun _ => "MD"⟩ 0
          ([("A", "a")].map (fun kv =>
            match (Except.ok "new" : Except String String) with
            | Except.ok s => (kv.1, s)
            | Except.error _ => kv))
          "MD").revisions + 1⟩ :=
  abort_forces_full_rewrite ⟨fun _ _ => ⟨some "abort", "R", []⟩,
    fun _ _ => Except.ok "new", fun _ => "MD"⟩ 0 [("A", "a")] "d"
    rfl (by decide) (by decide)
